import Mathlib

/-!
Shallow embedding of the HP / quota core of `telegram_dnd_bot.py`
("Фэйт Ардент, бросающая кубы"): participant registry, usage-window
normalization, target resolution, and the damage / heal / resurrection
actions.  The chat transport is abstracted away: each handler becomes a
pure function from its inputs (actor identity and display name, the
request's reply reference and first argument token, the rolled amount,
and the observed day / week keys) and the loaded state to the saved
state plus an outcome.
-/

namespace FateArdent

def MAX_HP : Int := 100

def DAILY_LIMIT : Int := 10

def WEEKLY_RESURRECTION_LIMIT : Int := 1

/-- A participant record, as stored in `state["players"]`.  The `hp` field
is `Option` because a record read from durable storage may lack the key
(`ensure_player` backfills it via `setdefault`). -/
structure Player where
  name : String
  hp : Option Int
deriving Repr, DecidableEq

/-- A per-actor usage record, as stored in `state["usage"]`.  Every field
may be absent until `actor_usage` normalizes the record. -/
structure Usage where
  day : Option String := none
  dmg : Option Int := none
  heal : Option Int := none
  week : Option String := none
  resurrection : Option Int := none
deriving Repr, DecidableEq

structure Target where
  user_id : String
  name : String
deriving Repr, DecidableEq

/-- The in-memory snapshot: Python dicts become association lists keyed by
the stringified user id, preserving insertion order. -/
structure BotState where
  players : List (String × Player)
  usage : List (String × Usage)
deriving Repr, DecidableEq

/-- Dict lookup: `d.get(k)`. -/
def alookup (k : String) : List (String × α) → Option α
  | [] => none
  | (k2, v) :: rest => if k2 = k then some v else alookup k rest

/-- Dict write: `d[k] = v` (updates in place, appends if missing). -/
def aset (k : String) (v : α) : List (String × α) → List (String × α)
  | [] => [(k, v)]
  | (k2, v2) :: rest => if k2 = k then (k, v) :: rest else (k2, v2) :: aset k v rest

/-- `ensure_player(state, user_id, name)`: creates the record with
`hp = MAX_HP` when absent; otherwise overwrites `name` and backfills a
missing `hp` (Python `player.setdefault("hp", MAX_HP)`).  Returns the new
state together with the (mutated) record the Python function returns by
reference. -/
def ensure_player (state : BotState) (user_id name : String) : BotState × Player :=
  match alookup user_id state.players with
  | none =>
      let player : Player := { name := name, hp := some MAX_HP }
      ({ state with players := aset user_id player state.players }, player)
  | some p =>
      let player : Player := { name := name, hp := some (p.hp.getD MAX_HP) }
      ({ state with players := aset user_id player state.players }, player)

/-- The window normalization performed inside `actor_usage` (source lines
136-149): reset the daily counters when the stored day key differs from
the observed one, independently reset the weekly counter when the stored
week key differs, then `setdefault` every counter to 0. -/
def normalize_usage (day_key week_key : String) (usage : Usage) : Usage :=
  let usage := if usage.day ≠ some day_key then
      { usage with day := some day_key, dmg := some 0, heal := some 0 }
    else usage
  let usage := if usage.week ≠ some week_key then
      { usage with week := some week_key, resurrection := some 0 }
    else usage
  { usage with
      dmg := some (usage.dmg.getD 0),
      heal := some (usage.heal.getD 0),
      resurrection := some (usage.resurrection.getD 0) }

/-- `actor_usage(state, actor_id)`: lazily creates the actor's usage
record (`state["usage"].setdefault(actor_id, {})`), normalizes both
windows in place, and returns the normalized record.  The observed day
and week keys are inputs of the embedding (`current_day_key()` and
`current_week_key()` read the clock). -/
def actor_usage (day_key week_key : String) (state : BotState) (actor_id : String) :
    BotState × Usage :=
  let usage := normalize_usage day_key week_key ((alookup actor_id state.usage).getD {})
  ({ state with usage := aset actor_id usage state.usage }, usage)

/-- Python `s.strip()`: drop whitespace from both ends. -/
def pystrip (s : String) : String :=
  ((s.data.dropWhile Char.isWhitespace).reverse.dropWhile Char.isWhitespace).reverse.asString

/-- Python `s.lower().lstrip("@")`: lower-case every character, then drop
every leading `@`. -/
def lower_lstrip_at (s : String) : String :=
  ((s.data.map Char.toLower).dropWhile (fun c => c = '@')).asString

/-- `find_target_from_arg`'s scan over `state["players"].items()`:
the first participant whose normalized name equals the needle. -/
def find_in_players (needle : String) : List (String × Player) → Option Target
  | [] => none
  | (user_id, player) :: rest =>
      if lower_lstrip_at player.name = needle then
        some { user_id := user_id, name := player.name }
      else find_in_players needle rest

/-- `find_target_from_arg(state, raw_target)`: normalize the token
(`raw_target.strip().lower().lstrip("@")`), bail out on an empty needle,
then scan the participants. -/
def find_target_from_arg (state : BotState) (raw_target : String) : Option Target :=
  let needle := lower_lstrip_at (pystrip raw_target)
  if needle = "" then none
  else find_in_players needle state.players

/-- The author of the replied-to message, when identifiable
(`update.message.reply_to_message.from_user`), with the display name the
adapter computes via `user_display_name`. -/
structure ReplyAuthor where
  id : String
  display_name : String
deriving Repr, DecidableEq

/-- The target-bearing part of an incoming command: the optional
reply reference and the optional first free-text token
(`context.args[0]`). -/
structure Request where
  reply_author : Option ReplyAuthor
  arg : Option String
deriving Repr, DecidableEq

/-- `resolve_target(update, context, state)`: a reply reference with an
identifiable author wins, is registered via `ensure_player`, and is
returned; otherwise the first argument token is matched against known
participants; otherwise resolution fails. -/
def resolve_target (req : Request) (state : BotState) : BotState × Option Target :=
  match req.reply_author with
  | some author =>
      let state := (ensure_player state author.id author.display_name).1
      (state, some { user_id := author.id, name := author.display_name })
  | none =>
      match req.arg with
      | some tok => (state, find_target_from_arg state tok)
      | none => (state, none)

inductive Mode where
  | dmg
  | heal
deriving Repr, DecidableEq

/-- The observable outcome of a handler run: the reply sent to the user,
reduced to its discriminating content. -/
inductive Outcome where
  | noTarget
  | quotaDenied
  | applied (target_id : String) (new_hp : Int)
deriving Repr, DecidableEq

/-- `apply_delta(update, context, mode)`, the shared body of `/dmg` and
`/heal`: ensure the actor, resolve the target (missing target ends the
request before any quota is touched), normalize and check the actor's
daily counter against `DAILY_LIMIT`, then consume one charge and clamp
the target's hp (`max(0, hp - amount)` or `min(MAX_HP, hp + amount)`).
The rolled `amount` (`random.randint(1, 8)`) is an input.  Every exit
path corresponds to a `save_state` in the source, so the returned state
is the saved snapshot. -/
def apply_delta (day_key week_key actor_id actor_name : String) (req : Request)
    (amount : Int) (mode : Mode) (state : BotState) : BotState × Outcome :=
  let state := (ensure_player state actor_id actor_name).1
  let res := resolve_target req state
  let state := res.1
  match res.2 with
  | none => (state, Outcome.noTarget)
  | some target =>
      let au := actor_usage day_key week_key state actor_id
      let state := au.1
      let usage := au.2
      if mode = Mode.dmg ∧ usage.dmg.getD 0 ≥ DAILY_LIMIT then
        (state, Outcome.quotaDenied)
      else if mode = Mode.heal ∧ usage.heal.getD 0 ≥ DAILY_LIMIT then
        (state, Outcome.quotaDenied)
      else
        let ep := ensure_player state target.user_id target.name
        let state := ep.1
        let player := ep.2
        match mode with
        | Mode.dmg =>
            let usage := { usage with dmg := some (usage.dmg.getD 0 + 1) }
            let state := { state with usage := aset actor_id usage state.usage }
            let new_hp := max 0 (player.hp.getD 0 - amount)
            let player := { player with hp := some new_hp }
            let state := { state with players := aset target.user_id player state.players }
            (state, Outcome.applied target.user_id new_hp)
        | Mode.heal =>
            let usage := { usage with heal := some (usage.heal.getD 0 + 1) }
            let state := { state with usage := aset actor_id usage state.usage }
            let new_hp := min MAX_HP (player.hp.getD 0 + amount)
            let player := { player with hp := some new_hp }
            let state := { state with players := aset target.user_id player state.players }
            (state, Outcome.applied target.user_id new_hp)

/-- `resurrection(update, context)`: same target-then-quota gating with
the weekly counter, then one charge is consumed and the target's hp is
set to `MAX_HP` unconditionally. -/
def resurrection (day_key week_key actor_id actor_name : String) (req : Request)
    (state : BotState) : BotState × Outcome :=
  let state := (ensure_player state actor_id actor_name).1
  let res := resolve_target req state
  let state := res.1
  match res.2 with
  | none => (state, Outcome.noTarget)
  | some target =>
      let au := actor_usage day_key week_key state actor_id
      let state := au.1
      let usage := au.2
      if usage.resurrection.getD 0 ≥ WEEKLY_RESURRECTION_LIMIT then
        (state, Outcome.quotaDenied)
      else
        let usage := { usage with resurrection := some (usage.resurrection.getD 0 + 1) }
        let state := { state with usage := aset actor_id usage state.usage }
        let ep := ensure_player state target.user_id target.name
        let state := ep.1
        let player := ep.2
        let player := { player with hp := some MAX_HP }
        let state := { state with players := aset target.user_id player state.players }
        (state, Outcome.applied target.user_id MAX_HP)

/-- What `load_state` finds on disk: no file, a file that fails to read or
parse, or a parsed document whose top-level keys may be missing. -/
inductive StorageRead where
  | missing
  | unparsable
  | parsed (players : Option (List (String × Player))) (usage : Option (List (String × Usage)))
deriving Repr, DecidableEq

/-- `load_state()`: a missing or unreadable/unparsable file yields the
fresh empty snapshot; a parsed document has its two top-level mappings
backfilled via `setdefault`. -/
def load_state (read : StorageRead) : BotState :=
  match read with
  | StorageRead.missing => { players := [], usage := [] }
  | StorageRead.unparsable => { players := [], usage := [] }
  | StorageRead.parsed players usage =>
      { players := players.getD [], usage := usage.getD [] }

/-! ### Helper lemmas about the association-list operations -/

theorem alookup_aset_self (k : String) (v : α) (l : List (String × α)) :
    alookup k (aset k v l) = some v := by
  induction l with
  | nil => simp [alookup, aset]
  | cons hd tl ih =>
      obtain ⟨k2, v2⟩ := hd
      by_cases h : k2 = k
      · simp [alookup, aset, h]
      · simp [alookup, aset, h, ih]

theorem alookup_aset_ne (hne : k2 ≠ k) (v : α) (l : List (String × α)) :
    alookup k2 (aset k v l) = alookup k2 l := by
  induction l with
  | nil =>
      have : k ≠ k2 := fun hh => hne hh.symm
      simp [alookup, aset, this]
  | cons hd tl ih =>
      obtain ⟨k3, v3⟩ := hd
      by_cases h : k3 = k
      · subst h
        have : k3 ≠ k2 := fun hh => hne hh.symm
        simp [alookup, aset, this]
      · simp only [aset, if_neg h, alookup]
        by_cases h2 : k3 = k2
        · simp [h2]
        · simp [h2, ih]

theorem alookup_aset_cases (k2 k : String) (v : α) (l : List (String × α))
    (h : alookup k2 (aset k v l) = some p) :
    (k2 = k ∧ p = v) ∨ alookup k2 l = some p := by
  by_cases hk : k2 = k
  · subst hk
    rw [alookup_aset_self] at h
    exact Or.inl ⟨rfl, (Option.some_injective _ h).symm⟩
  · rw [alookup_aset_ne hk] at h
    exact Or.inr h

/-! ### How each operation touches the two maps -/

theorem ensure_player_usage (st : BotState) (a n : String) :
    ((ensure_player st a n).1).usage = st.usage := by
  unfold ensure_player
  cases alookup a st.players <;> rfl

theorem resolve_target_usage (req : Request) (st : BotState) :
    ((resolve_target req st).1).usage = st.usage := by
  unfold resolve_target
  cases req.reply_author with
  | none => cases req.arg <;> rfl
  | some author => simp [ensure_player_usage]

theorem ensure_player_players (st : BotState) (a n : String) :
    ((ensure_player st a n).1).players = aset a (ensure_player st a n).2 st.players := by
  unfold ensure_player
  cases alookup a st.players <;> rfl

theorem ensure_player_preserves_hp (st : BotState) (a n u : String) (p : Player) (h : Int)
    (hp : alookup u st.players = some p) (hh : p.hp = some h) :
    ∃ q, alookup u ((ensure_player st a n).1).players = some q ∧ q.hp = some h := by
  rw [ensure_player_players]
  by_cases hu : u = a
  · subst hu
    refine ⟨(ensure_player st u n).2, alookup_aset_self u _ st.players, ?_⟩
    unfold ensure_player
    rw [hp]
    simp [hh]
  · exact ⟨p, by rw [alookup_aset_ne hu]; exact hp, hh⟩

theorem resolve_target_preserves_hp (req : Request) (st : BotState) (u : String)
    (p : Player) (h : Int)
    (hp : alookup u st.players = some p) (hh : p.hp = some h) :
    ∃ q, alookup u ((resolve_target req st).1).players = some q ∧ q.hp = some h := by
  unfold resolve_target
  cases req.reply_author with
  | none =>
      cases req.arg with
      | none => exact ⟨p, hp, hh⟩
      | some tok => exact ⟨p, hp, hh⟩
  | some author =>
      exact ensure_player_preserves_hp st author.id author.display_name u p h hp hh

/-- The bounded-hp invariant over a players map: every stored hp lies in
`[0, MAX_HP]`. -/
def PlayersInv (l : List (String × Player)) : Prop :=
  ∀ u p h, alookup u l = some p → p.hp = some h → 0 ≤ h ∧ h ≤ MAX_HP

theorem PlayersInv.aset (hinv : PlayersInv l) (k : String) (v : Player)
    (hv : ∀ h, v.hp = some h → 0 ≤ h ∧ h ≤ MAX_HP) : PlayersInv (aset k v l) := by
  intro u p h hl hh
  rcases alookup_aset_cases u k v l hl with ⟨_, rfl⟩ | hold
  · exact hv h hh
  · exact hinv u p h hold hh

theorem ensure_player_hp_bound (st : BotState) (a n : String) (hinv : PlayersInv st.players) :
    ∀ h, (ensure_player st a n).2.hp = some h → 0 ≤ h ∧ h ≤ MAX_HP := by
  intro h hh
  unfold ensure_player at hh
  cases hl : alookup a st.players with
  | none =>
      rw [hl] at hh
      simp only [Option.some.injEq] at hh
      simp [MAX_HP] at hh ⊢
      omega
  | some p =>
      rw [hl] at hh
      simp only [Option.some.injEq] at hh
      cases hph : p.hp with
      | none =>
          rw [hph] at hh
          simp [MAX_HP] at hh ⊢
          omega
      | some v =>
          rw [hph] at hh
          simp only [Option.getD_some] at hh
          exact hh ▸ hinv a p v hl hph

theorem ensure_player_inv (st : BotState) (a n : String) (hinv : PlayersInv st.players) :
    PlayersInv ((ensure_player st a n).1).players := by
  rw [ensure_player_players]
  exact hinv.aset a _ (ensure_player_hp_bound st a n hinv)

theorem resolve_target_inv (req : Request) (st : BotState) (hinv : PlayersInv st.players) :
    PlayersInv ((resolve_target req st).1).players := by
  unfold resolve_target
  cases req.reply_author with
  | none => cases req.arg <;> exact hinv
  | some author => exact ensure_player_inv st author.id author.display_name hinv

/-! ### Closed forms for the normalized usage record -/

theorem normalize_usage_day (dk wk : String) (u : Usage) :
    (normalize_usage dk wk u).day = some dk := by
  unfold normalize_usage
  by_cases h1 : u.day = some dk <;> by_cases h2 : u.week = some wk <;> simp [h1, h2]

theorem normalize_usage_week (dk wk : String) (u : Usage) :
    (normalize_usage dk wk u).week = some wk := by
  unfold normalize_usage
  by_cases h1 : u.day = some dk <;> by_cases h2 : u.week = some wk <;> simp [h1, h2]

theorem normalize_usage_dmg (dk wk : String) (u : Usage) :
    (normalize_usage dk wk u).dmg = some (if u.day = some dk then u.dmg.getD 0 else 0) := by
  unfold normalize_usage
  by_cases h1 : u.day = some dk <;> by_cases h2 : u.week = some wk <;> simp [h1, h2]

theorem normalize_usage_heal (dk wk : String) (u : Usage) :
    (normalize_usage dk wk u).heal = some (if u.day = some dk then u.heal.getD 0 else 0) := by
  unfold normalize_usage
  by_cases h1 : u.day = some dk <;> by_cases h2 : u.week = some wk <;> simp [h1, h2]

theorem normalize_usage_resurrection (dk wk : String) (u : Usage) :
    (normalize_usage dk wk u).resurrection
      = some (if u.week = some wk then u.resurrection.getD 0 else 0) := by
  unfold normalize_usage
  by_cases h1 : u.day = some dk <;> by_cases h2 : u.week = some wk <;> simp [h1, h2]

theorem normalize_usage_idem (dk wk : String) (u : Usage) :
    normalize_usage dk wk (normalize_usage dk wk u) = normalize_usage dk wk u := by
  rcases hv : normalize_usage dk wk u with ⟨d, dm, he, w, r⟩
  have hd : d = some dk := by rw [← normalize_usage_day dk wk u, hv]
  have hw : w = some wk := by rw [← normalize_usage_week dk wk u, hv]
  have hdm : dm = some (if u.day = some dk then u.dmg.getD 0 else 0) := by
    rw [← normalize_usage_dmg dk wk u, hv]
  have hhe : he = some (if u.day = some dk then u.heal.getD 0 else 0) := by
    rw [← normalize_usage_heal dk wk u, hv]
  have hr : r = some (if u.week = some wk then u.resurrection.getD 0 else 0) := by
    rw [← normalize_usage_resurrection dk wk u, hv]
  subst hd hw hdm hhe hr
  simp [normalize_usage]

theorem ensure_player_create (st : BotState) (a n : String)
    (hl : alookup a st.players = none) :
    alookup a ((ensure_player st a n).1).players = some { name := n, hp := some MAX_HP } := by
  unfold ensure_player
  rw [hl]
  exact alookup_aset_self a _ st.players

theorem ensure_player_snd_hp (st : BotState) (a n : String) :
    ∃ v, (ensure_player st a n).2.hp = some v := by
  unfold ensure_player
  cases alookup a st.players <;> exact ⟨_, rfl⟩

theorem clamp_dmg_bound (v amount : Int) (hv0 : 0 ≤ v) (hv1 : v ≤ MAX_HP) (ha : 1 ≤ amount) :
    0 ≤ max 0 (v - amount) ∧ max 0 (v - amount) ≤ MAX_HP := by
  simp only [MAX_HP] at hv1 ⊢
  refine ⟨le_max_left 0 _, max_le (by norm_num) (by omega)⟩

theorem clamp_heal_bound (v amount : Int) (hv0 : 0 ≤ v) (ha : 1 ≤ amount) :
    0 ≤ min MAX_HP (v + amount) ∧ min MAX_HP (v + amount) ≤ MAX_HP := by
  simp only [MAX_HP]
  exact ⟨le_min (by norm_num) (by omega), min_le_left _ _⟩

theorem actor_usage_snd (dk wk : String) (s : BotState) (aid : String) :
    (actor_usage dk wk s aid).2 = normalize_usage dk wk ((alookup aid s.usage).getD {}) := rfl

theorem actor_usage_fst (dk wk : String) (s : BotState) (aid : String) :
    (actor_usage dk wk s aid).1
      = { s with usage := aset aid (normalize_usage dk wk ((alookup aid s.usage).getD {})) s.usage } := rfl

theorem pre_state_usage (req : Request) (st : BotState) (aid an : String) :
    ((resolve_target req (ensure_player st aid an).1).1).usage = st.usage := by
  rw [resolve_target_usage, ensure_player_usage]

theorem pre_state_preserves_hp (req : Request) (st : BotState) (aid an : String) :
    ∀ uid p h, alookup uid st.players = some p → p.hp = some h →
      ∃ q, alookup uid ((resolve_target req (ensure_player st aid an).1).1).players = some q ∧
        q.hp = some h := by
  intro uid p h hp hh
  obtain ⟨q, hq1, hq2⟩ := ensure_player_preserves_hp st aid an uid p h hp hh
  exact resolve_target_preserves_hp req _ uid q h hq1 hq2

/-! ### The participant scan of `find_target_from_arg` -/

theorem find_in_players_isSome (needle : String) (l : List (String × Player)) :
    (find_in_players needle l).isSome ↔ ∃ e ∈ l, lower_lstrip_at e.2.name = needle := by
  induction l with
  | nil => simp [find_in_players]
  | cons hd tl ih =>
      obtain ⟨uid, p⟩ := hd
      by_cases h : lower_lstrip_at p.name = needle <;> simp [find_in_players, h, ih]

theorem find_in_players_mem (needle : String) (l : List (String × Player)) (t : Target)
    (h : find_in_players needle l = some t) :
    ∃ e ∈ l, e.1 = t.user_id ∧ e.2.name = t.name ∧ lower_lstrip_at e.2.name = needle := by
  induction l with
  | nil => simp [find_in_players] at h
  | cons hd tl ih =>
      obtain ⟨uid, p⟩ := hd
      by_cases hm : lower_lstrip_at p.name = needle
      · simp only [find_in_players, if_pos hm] at h
        refine ⟨(uid, p), by simp, ?_⟩
        cases h
        exact ⟨rfl, rfl, hm⟩
      · simp only [find_in_players, if_neg hm] at h
        obtain ⟨e, he, h1, h2, h3⟩ := ih h
        exact ⟨e, by simp [he], h1, h2, h3⟩

/-! ### Claim theorems -/

/-- Claim C9: when durable storage does not exist, or exists but fails to
parse as well-formed structured data, `load_state` returns the fresh
empty snapshot (`participants = {}`, `usage = {}`). -/
theorem C9_load_state_fallback :
    load_state StorageRead.missing = { players := [], usage := [] } ∧
    load_state StorageRead.unparsable = { players := [], usage := [] } :=
  ⟨rfl, rfl⟩

/-- Claim C10: `ensure_player` creates a record with `hp = 100` and the
given name when none exists for the identity; when one exists it
unconditionally overwrites the stored name, leaves a present `hp`
unchanged (defaulting it to `100` only when absent), and never touches
other identities.  It is total, hence always succeeds. -/
theorem C10_ensure_player_spec (st : BotState) (uid n : String) :
    (alookup uid st.players = none →
       alookup uid ((ensure_player st uid n).1).players
         = some { name := n, hp := some MAX_HP } ∧
       (ensure_player st uid n).2 = { name := n, hp := some MAX_HP }) ∧
    (∀ p, alookup uid st.players = some p →
       alookup uid ((ensure_player st uid n).1).players
         = some { name := n, hp := some (p.hp.getD MAX_HP) } ∧
       ∀ h, p.hp = some h →
         alookup uid ((ensure_player st uid n).1).players
           = some { name := n, hp := some h }) ∧
    (∀ v, v ≠ uid → alookup v ((ensure_player st uid n).1).players = alookup v st.players) := by
  refine ⟨?_, ?_, ?_⟩
  · intro hl
    unfold ensure_player
    rw [hl]
    exact ⟨alookup_aset_self uid _ st.players, rfl⟩
  · intro p hl
    have hmain : alookup uid ((ensure_player st uid n).1).players
        = some { name := n, hp := some (p.hp.getD MAX_HP) } := by
      unfold ensure_player
      rw [hl]
      exact alookup_aset_self uid _ st.players
    refine ⟨hmain, ?_⟩
    intro h hh
    rw [hmain, hh]
    simp
  · intro v hv
    rw [ensure_player_players]
    exact alookup_aset_ne hv _ st.players

/-- Witness for C10 at a concrete input: ensuring an unseen identity
creates it at 100 hp, ensuring a seen identity refreshes the name and
keeps its hp. -/
theorem C10_ensure_player_spec_witness :
    alookup "9"
        ((ensure_player { players := [("5", { name := "Old", hp := some 42 })], usage := [] }
          "9" "New").1).players
      = some { name := "New", hp := some MAX_HP } ∧
    alookup "5"
        ((ensure_player { players := [("5", { name := "Old", hp := some 42 })], usage := [] }
          "5" "Fresh").1).players
      = some { name := "Fresh", hp := some 42 } := by
  constructor
  · exact ((C10_ensure_player_spec
      { players := [("5", { name := "Old", hp := some 42 })], usage := [] } "9" "New").1
      (by decide)).1
  · exact ((C10_ensure_player_spec
      { players := [("5", { name := "Old", hp := some 42 })], usage := [] } "5" "Fresh").2.1
      { name := "Old", hp := some 42 } (by decide)).2 42 rfl

/-- Claim C3: window normalization resets the daily counters and updates
the day key exactly when the observed day differs from the stored one
(an absent stored counter defaults to 0 when the day matches),
independently resets the weekly counter exactly when the observed ISO
week differs, and is idempotent under the same observed day and week. -/
theorem C3_normalize_usage_spec (dk wk : String) (u : Usage) :
    ((u.day = some dk →
        (normalize_usage dk wk u).day = some dk ∧
        (normalize_usage dk wk u).dmg = some (u.dmg.getD 0) ∧
        (normalize_usage dk wk u).heal = some (u.heal.getD 0)) ∧
     (u.day ≠ some dk →
        (normalize_usage dk wk u).day = some dk ∧
        (normalize_usage dk wk u).dmg = some 0 ∧
        (normalize_usage dk wk u).heal = some 0)) ∧
    ((u.week = some wk →
        (normalize_usage dk wk u).week = some wk ∧
        (normalize_usage dk wk u).resurrection = some (u.resurrection.getD 0)) ∧
     (u.week ≠ some wk →
        (normalize_usage dk wk u).week = some wk ∧
        (normalize_usage dk wk u).resurrection = some 0)) ∧
    normalize_usage dk wk (normalize_usage dk wk u) = normalize_usage dk wk u := by
  refine ⟨⟨?_, ?_⟩, ⟨?_, ?_⟩, normalize_usage_idem dk wk u⟩
  · intro h
    rw [normalize_usage_day, normalize_usage_dmg, normalize_usage_heal]
    simp [h]
  · intro h
    rw [normalize_usage_day, normalize_usage_dmg, normalize_usage_heal]
    simp [h]
  · intro h
    rw [normalize_usage_week, normalize_usage_resurrection]
    simp [h]
  · intro h
    rw [normalize_usage_week, normalize_usage_resurrection]
    simp [h]

/-- Witness for C3 at a concrete record: same day (counter kept),
different week (counter reset). -/
theorem C3_normalize_usage_spec_witness :
    (normalize_usage "2024-01-02" "2024-W01"
        { day := some "2024-01-02", dmg := some 3, heal := none,
          week := some "2023-W52", resurrection := some 1 }).dmg = some 3 ∧
    (normalize_usage "2024-01-02" "2024-W01"
        { day := some "2024-01-02", dmg := some 3, heal := none,
          week := some "2023-W52", resurrection := some 1 }).resurrection = some 0 := by
  have h := C3_normalize_usage_spec "2024-01-02" "2024-W01"
    { day := some "2024-01-02", dmg := some 3, heal := none,
      week := some "2023-W52", resurrection := some 1 }
  refine ⟨?_, (h.2.1.2 (by decide)).2⟩
  have h2 := (h.1.1 rfl).2.1
  simpa using h2

/-- Claim C8: free-text name matching compares the (stripped) token and
each stored name case-insensitively with leading `@` removed from both
sides and succeeds exactly on full equality of the normalized forms
(with an empty normalized token matching nothing); any returned target
is such a stored participant.  Concretely, tokens `"@Mira"` and `"mira"`
match a participant named `"Mira"` while the partial token `"Mir"` does
not. -/
theorem C8_find_target_matching :
    (∀ st tok, ((find_target_from_arg st tok).isSome ↔
        (lower_lstrip_at (pystrip tok) ≠ "" ∧
         ∃ e ∈ st.players, lower_lstrip_at e.2.name = lower_lstrip_at (pystrip tok)))) ∧
    (∀ st tok t, find_target_from_arg st tok = some t →
        ∃ e ∈ st.players, e.1 = t.user_id ∧ e.2.name = t.name ∧
          lower_lstrip_at e.2.name = lower_lstrip_at (pystrip tok)) ∧
    find_target_from_arg { players := [("7", { name := "Mira", hp := some 80 })], usage := [] }
        "@Mira" = some { user_id := "7", name := "Mira" } ∧
    find_target_from_arg { players := [("7", { name := "Mira", hp := some 80 })], usage := [] }
        "mira" = some { user_id := "7", name := "Mira" } ∧
    find_target_from_arg { players := [("7", { name := "Mira", hp := some 80 })], usage := [] }
        "Mir" = none := by
  refine ⟨?_, ?_, by decide, by decide, by decide⟩
  · intro st tok
    unfold find_target_from_arg
    by_cases hn : lower_lstrip_at (pystrip tok) = ""
    · simp [hn]
    · simp [hn, find_in_players_isSome]
  · intro st tok t h
    unfold find_target_from_arg at h
    by_cases hn : lower_lstrip_at (pystrip tok) = ""
    · simp [hn] at h
    · simp only [if_neg hn] at h
      exact find_in_players_mem _ _ _ h

/-- Witness for C8 at a concrete input: the match for token `"mira"` is
the stored `"Mira"` record. -/
theorem C8_find_target_matching_witness :
    ∃ e ∈ [("7", ({ name := "Mira", hp := some 80 } : Player))],
      e.1 = "7" ∧ e.2.name = "Mira" ∧
        lower_lstrip_at e.2.name = lower_lstrip_at (pystrip "mira") :=
  C8_find_target_matching.2.1
    { players := [("7", { name := "Mira", hp := some 80 })], usage := [] } "mira"
    { user_id := "7", name := "Mira" } (by decide)

/-- Claim C7: target resolution precedence.  A reply reference with an
identifiable author always wins (even when a free-text token is also
present), is registered via `ensure_player` (creating a 100-hp record
when unseen), and is returned; without a reply reference the resolver
never mutates the state, so an unmatched token creates no participant. -/
theorem C7_resolve_target_precedence (st : BotState) (a : ReplyAuthor)
    (tok : Option String) (req : Request) :
    ((resolve_target { reply_author := some a, arg := tok } st).2
        = some { user_id := a.id, name := a.display_name }) ∧
    ((resolve_target { reply_author := some a, arg := tok } st).1
        = (ensure_player st a.id a.display_name).1) ∧
    (alookup a.id st.players = none →
       alookup a.id ((resolve_target { reply_author := some a, arg := tok } st).1).players
         = some { name := a.display_name, hp := some MAX_HP }) ∧
    (req.reply_author = none → (resolve_target req st).1 = st) := by
  refine ⟨rfl, rfl, ?_, ?_⟩
  · intro hl
    exact ensure_player_create st a.id a.display_name hl
  · intro hr
    unfold resolve_target
    rw [hr]
    cases req.arg <;> rfl

/-- Witness for C7 at a concrete input: replying to the unseen author
`"9"` registers them at 100 hp although the token `"x"` is present, and
an argument-only request leaves the state untouched. -/
theorem C7_resolve_target_precedence_witness :
    alookup "9"
        ((resolve_target
            { reply_author := some { id := "9", display_name := "Zoe" }, arg := some "x" }
            { players := [], usage := [] }).1).players
      = some { name := "Zoe", hp := some MAX_HP } ∧
    (resolve_target { reply_author := none, arg := some "nobody" }
        { players := [], usage := [] }).1 = { players := [], usage := [] } := by
  constructor
  · exact (C7_resolve_target_precedence { players := [], usage := [] }
      { id := "9", display_name := "Zoe" } (some "x")
      { reply_author := none, arg := some "nobody" }).2.2.1 (by decide)
  · exact (C7_resolve_target_precedence { players := [], usage := [] }
      { id := "9", display_name := "Zoe" } (some "x")
      { reply_author := none, arg := some "nobody" }).2.2.2 rfl

/-- Claim C6: when target resolution fails, the usage map — and with it
every quota counter of the actor — is exactly what it was before the
request, for damage/heal as well as resurrection: the missing-target
check precedes any quota read or consumption. -/
theorem C6_no_target_no_quota (dk wk aid an : String) (req : Request) (amount : Int)
    (mode : Mode) (st : BotState) :
    ((apply_delta dk wk aid an req amount mode st).2 = Outcome.noTarget →
       ((apply_delta dk wk aid an req amount mode st).1).usage = st.usage) ∧
    ((resurrection dk wk aid an req st).2 = Outcome.noTarget →
       ((resurrection dk wk aid an req st).1).usage = st.usage) := by
  constructor
  · intro h
    cases hres : (resolve_target req (ensure_player st aid an).1).2 with
    | none =>
        simp only [apply_delta, hres]
        rw [resolve_target_usage, ensure_player_usage]
    | some t =>
        exfalso
        simp only [apply_delta, hres] at h
        split_ifs at h
        cases mode <;> simp at h
  · intro h
    cases hres : (resolve_target req (ensure_player st aid an).1).2 with
    | none =>
        simp only [resurrection, hres]
        rw [resolve_target_usage, ensure_player_usage]
    | some t =>
        exfalso
        simp only [resurrection, hres] at h
        split_ifs at h

/-- Witness for C6 at a concrete input: a damage request with no reply
and no token fails to resolve and leaves a non-empty usage map intact. -/
theorem C6_no_target_no_quota_witness :
    (apply_delta "d" "w" "1" "A" { reply_author := none, arg := none } 3 Mode.dmg
        { players := [],
          usage := [("1", { day := some "d", dmg := some 9, heal := some 0,
                            week := some "w", resurrection := some 0 })] }).2
      = Outcome.noTarget ∧
    ((apply_delta "d" "w" "1" "A" { reply_author := none, arg := none } 3 Mode.dmg
        { players := [],
          usage := [("1", { day := some "d", dmg := some 9, heal := some 0,
                            week := some "w", resurrection := some 0 })] }).1).usage
      = [("1", { day := some "d", dmg := some 9, heal := some 0,
                 week := some "w", resurrection := some 0 })] := by
  refine ⟨by decide, ?_⟩
  have h := (C6_no_target_no_quota "d" "w" "1" "A" { reply_author := none, arg := none } 3
    Mode.dmg
    { players := [],
      usage := [("1", { day := some "d", dmg := some 9, heal := some 0,
                        week := some "w", resurrection := some 0 })] }).1 (by decide)
  simpa using h

/-- Claim C1: starting from any state whose stored hp values all lie in
`[0, 100]` and any rolled amount in `[1, 8]`, every hp value stored
after a damage, heal, or resurrection request still lies in `[0, 100]`
(damage clamps at `max(0, hp - amount)`, heal at
`min(100, hp + amount)`, resurrection writes `100`). -/
theorem C1_hp_bounds (dk wk aid an : String) (req : Request) (amount : Int)
    (mode : Mode) (st : BotState)
    (hinv : PlayersInv st.players) (h1 : 1 ≤ amount) (h8 : amount ≤ 8) :
    PlayersInv ((apply_delta dk wk aid an req amount mode st).1).players ∧
    PlayersInv ((resurrection dk wk aid an req st).1).players := by
  have _h8 := h8
  have hinv1 := ensure_player_inv st aid an hinv
  have hinv2 := resolve_target_inv req (ensure_player st aid an).1 hinv1
  have hinv3 : PlayersInv
      ((actor_usage dk wk (resolve_target req (ensure_player st aid an).1).1 aid).1).players :=
    hinv2
  constructor
  · cases hres : (resolve_target req (ensure_player st aid an).1).2 with
    | none =>
        simp only [apply_delta, hres]
        exact hinv2
    | some t =>
        simp only [apply_delta, hres]
        split_ifs
        · exact hinv3
        · exact hinv3
        · obtain ⟨v, hv⟩ := ensure_player_snd_hp
            (actor_usage dk wk (resolve_target req (ensure_player st aid an).1).1 aid).1
            t.user_id t.name
          have hvb := ensure_player_hp_bound
            (actor_usage dk wk (resolve_target req (ensure_player st aid an).1).1 aid).1
            t.user_id t.name hinv3 v hv
          cases mode
          · refine PlayersInv.aset (ensure_player_inv _ t.user_id t.name hinv3) _ _ ?_
            intro h hh
            simp only [Option.some.injEq] at hh
            rw [hv] at hh
            simp only [Option.getD_some] at hh
            have hb := clamp_dmg_bound v amount hvb.1 hvb.2 h1
            rw [hh] at hb
            exact hb
          · refine PlayersInv.aset (ensure_player_inv _ t.user_id t.name hinv3) _ _ ?_
            intro h hh
            simp only [Option.some.injEq] at hh
            rw [hv] at hh
            simp only [Option.getD_some] at hh
            have hb := clamp_heal_bound v amount hvb.1 h1
            rw [hh] at hb
            exact hb
  · cases hres : (resolve_target req (ensure_player st aid an).1).2 with
    | none =>
        simp only [resurrection, hres]
        exact hinv2
    | some t =>
        simp only [resurrection, hres]
        split_ifs
        · exact hinv3
        · refine PlayersInv.aset (ensure_player_inv _ t.user_id t.name ?_) _ _ ?_
          · exact hinv3
          · intro h hh
            simp only [Option.some.injEq] at hh
            rw [← hh]
            constructor <;> simp [MAX_HP]

/-- Witness for C1 at a concrete input: damaging `"Mira"` (50 hp) by the
in-range roll 3 keeps every stored hp inside `[0, 100]`. -/
theorem C1_hp_bounds_witness :
    PlayersInv [("7", { name := "Mira", hp := some 50 })] ∧
    (1 : Int) ≤ 3 ∧ (3 : Int) ≤ 8 ∧
    PlayersInv ((apply_delta "d" "w" "1" "A" { reply_author := none, arg := some "mira" } 3
        Mode.dmg { players := [("7", { name := "Mira", hp := some 50 })], usage := [] }).1).players := by
  have hinv : PlayersInv [("7", { name := "Mira", hp := some 50 })] := by
    intro u p h hl hh
    by_cases h7 : ("7" : String) = u
    · simp only [alookup, if_pos h7] at hl
      cases hl
      simp only [Option.some.injEq] at hh
      simp [← hh, MAX_HP]
    · simp [alookup, h7] at hl
  refine ⟨hinv, by norm_num, by norm_num, ?_⟩
  exact (C1_hp_bounds "d" "w" "1" "A" { reply_author := none, arg := some "mira" } 3
    Mode.dmg { players := [("7", { name := "Mira", hp := some 50 })], usage := [] }
    hinv (by norm_num) (by norm_num)).1

/-- Claim C2: quota gating.  With a resolved target, when the actor's
normalized counter for the requested kind is at or above its ceiling
(`dmg`/`heal`: 10 per day, `resurrection`: 1 per week) the request is
denied, the actor's stored usage record stays exactly the normalized
record (no increment), and no stored hp changes; when below the ceiling
the action is applied and the counter is incremented by exactly one.
Consequently a counter that is at most its ceiling can never be pushed
past it. -/
theorem C2_quota_gate (dk wk aid an : String) (req : Request) (amount : Int) (st : BotState)
    (target : Target)
    (hres : (resolve_target req (ensure_player st aid an).1).2 = some target) :
    ((normalize_usage dk wk ((alookup aid st.usage).getD {})).dmg.getD 0 ≥ DAILY_LIMIT →
       (apply_delta dk wk aid an req amount Mode.dmg st).2 = Outcome.quotaDenied ∧
       alookup aid ((apply_delta dk wk aid an req amount Mode.dmg st).1).usage
         = some (normalize_usage dk wk ((alookup aid st.usage).getD {})) ∧
       (∀ uid p h, alookup uid st.players = some p → p.hp = some h →
          ∃ q, alookup uid ((apply_delta dk wk aid an req amount Mode.dmg st).1).players
                 = some q ∧ q.hp = some h)) ∧
    ((normalize_usage dk wk ((alookup aid st.usage).getD {})).dmg.getD 0 < DAILY_LIMIT →
       (∃ hp2, (apply_delta dk wk aid an req amount Mode.dmg st).2
          = Outcome.applied target.user_id hp2) ∧
       (∃ u2, alookup aid ((apply_delta dk wk aid an req amount Mode.dmg st).1).usage
          = some u2 ∧
          u2.dmg = some ((normalize_usage dk wk ((alookup aid st.usage).getD {})).dmg.getD 0 + 1))) ∧
    ((normalize_usage dk wk ((alookup aid st.usage).getD {})).heal.getD 0 ≥ DAILY_LIMIT →
       (apply_delta dk wk aid an req amount Mode.heal st).2 = Outcome.quotaDenied ∧
       alookup aid ((apply_delta dk wk aid an req amount Mode.heal st).1).usage
         = some (normalize_usage dk wk ((alookup aid st.usage).getD {})) ∧
       (∀ uid p h, alookup uid st.players = some p → p.hp = some h →
          ∃ q, alookup uid ((apply_delta dk wk aid an req amount Mode.heal st).1).players
                 = some q ∧ q.hp = some h)) ∧
    ((normalize_usage dk wk ((alookup aid st.usage).getD {})).heal.getD 0 < DAILY_LIMIT →
       (∃ hp2, (apply_delta dk wk aid an req amount Mode.heal st).2
          = Outcome.applied target.user_id hp2) ∧
       (∃ u2, alookup aid ((apply_delta dk wk aid an req amount Mode.heal st).1).usage
          = some u2 ∧
          u2.heal = some ((normalize_usage dk wk ((alookup aid st.usage).getD {})).heal.getD 0 + 1))) ∧
    ((normalize_usage dk wk ((alookup aid st.usage).getD {})).resurrection.getD 0
        ≥ WEEKLY_RESURRECTION_LIMIT →
       (resurrection dk wk aid an req st).2 = Outcome.quotaDenied ∧
       alookup aid ((resurrection dk wk aid an req st).1).usage
         = some (normalize_usage dk wk ((alookup aid st.usage).getD {})) ∧
       (∀ uid p h, alookup uid st.players = some p → p.hp = some h →
          ∃ q, alookup uid ((resurrection dk wk aid an req st).1).players
                 = some q ∧ q.hp = some h)) ∧
    ((normalize_usage dk wk ((alookup aid st.usage).getD {})).resurrection.getD 0
        < WEEKLY_RESURRECTION_LIMIT →
       (∃ hp2, (resurrection dk wk aid an req st).2 = Outcome.applied target.user_id hp2) ∧
       (∃ u2, alookup aid ((resurrection dk wk aid an req st).1).usage = some u2 ∧
          u2.resurrection
            = some ((normalize_usage dk wk ((alookup aid st.usage).getD {})).resurrection.getD 0
                + 1))) ∧
    ((normalize_usage dk wk ((alookup aid st.usage).getD {})).dmg.getD 0 ≤ DAILY_LIMIT →
       ∀ u2, alookup aid ((apply_delta dk wk aid an req amount Mode.dmg st).1).usage = some u2 →
         u2.dmg.getD 0 ≤ DAILY_LIMIT) ∧
    ((normalize_usage dk wk ((alookup aid st.usage).getD {})).heal.getD 0 ≤ DAILY_LIMIT →
       ∀ u2, alookup aid ((apply_delta dk wk aid an req amount Mode.heal st).1).usage = some u2 →
         u2.heal.getD 0 ≤ DAILY_LIMIT) ∧
    ((normalize_usage dk wk ((alookup aid st.usage).getD {})).resurrection.getD 0
        ≤ WEEKLY_RESURRECTION_LIMIT →
       ∀ u2, alookup aid ((resurrection dk wk aid an req st).1).usage = some u2 →
         u2.resurrection.getD 0 ≤ WEEKLY_RESURRECTION_LIMIT) := by
  have husage := pre_state_usage req st aid an
  have Hdd : (normalize_usage dk wk ((alookup aid st.usage).getD {})).dmg.getD 0 ≥ DAILY_LIMIT →
      (apply_delta dk wk aid an req amount Mode.dmg st).2 = Outcome.quotaDenied ∧
      alookup aid ((apply_delta dk wk aid an req amount Mode.dmg st).1).usage
        = some (normalize_usage dk wk ((alookup aid st.usage).getD {})) ∧
      (∀ uid p h, alookup uid st.players = some p → p.hp = some h →
         ∃ q, alookup uid ((apply_delta dk wk aid an req amount Mode.dmg st).1).players
                = some q ∧ q.hp = some h) := by
    intro hq
    simp only [apply_delta, hres, actor_usage_snd, actor_usage_fst, husage, ensure_player_usage]
    rw [if_pos ⟨trivial, hq⟩]
    exact ⟨rfl, alookup_aset_self _ _ _, pre_state_preserves_hp req st aid an⟩
  have Hda : (normalize_usage dk wk ((alookup aid st.usage).getD {})).dmg.getD 0 < DAILY_LIMIT →
      (∃ hp2, (apply_delta dk wk aid an req amount Mode.dmg st).2
         = Outcome.applied target.user_id hp2) ∧
      (∃ u2, alookup aid ((apply_delta dk wk aid an req amount Mode.dmg st).1).usage
         = some u2 ∧
         u2.dmg = some ((normalize_usage dk wk ((alookup aid st.usage).getD {})).dmg.getD 0 + 1)) := by
    intro hq
    have hq2 : ¬ (True ∧
        (normalize_usage dk wk ((alookup aid st.usage).getD {})).dmg.getD 0 ≥ DAILY_LIMIT) :=
      fun hc => absurd hc.2 (not_le.mpr hq)
    have hq3 : ¬ (Mode.dmg = Mode.heal ∧
        (normalize_usage dk wk ((alookup aid st.usage).getD {})).heal.getD 0 ≥ DAILY_LIMIT) := by
      simp
    simp only [apply_delta, hres, actor_usage_snd, actor_usage_fst, husage, ensure_player_usage]
    rw [if_neg hq2, if_neg hq3]
    refine ⟨⟨_, rfl⟩, _, alookup_aset_self _ _ _, ?_⟩
    rfl
  have Hhd : (normalize_usage dk wk ((alookup aid st.usage).getD {})).heal.getD 0 ≥ DAILY_LIMIT →
      (apply_delta dk wk aid an req amount Mode.heal st).2 = Outcome.quotaDenied ∧
      alookup aid ((apply_delta dk wk aid an req amount Mode.heal st).1).usage
        = some (normalize_usage dk wk ((alookup aid st.usage).getD {})) ∧
      (∀ uid p h, alookup uid st.players = some p → p.hp = some h →
         ∃ q, alookup uid ((apply_delta dk wk aid an req amount Mode.heal st).1).players
                = some q ∧ q.hp = some h) := by
    intro hq
    have hq2 : ¬ (Mode.heal = Mode.dmg ∧
        (normalize_usage dk wk ((alookup aid st.usage).getD {})).dmg.getD 0 ≥ DAILY_LIMIT) := by
      simp
    simp only [apply_delta, hres, actor_usage_snd, actor_usage_fst, husage, ensure_player_usage]
    rw [if_neg hq2, if_pos ⟨trivial, hq⟩]
    exact ⟨rfl, alookup_aset_self _ _ _, pre_state_preserves_hp req st aid an⟩
  have Hha : (normalize_usage dk wk ((alookup aid st.usage).getD {})).heal.getD 0 < DAILY_LIMIT →
      (∃ hp2, (apply_delta dk wk aid an req amount Mode.heal st).2
         = Outcome.applied target.user_id hp2) ∧
      (∃ u2, alookup aid ((apply_delta dk wk aid an req amount Mode.heal st).1).usage
         = some u2 ∧
         u2.heal = some ((normalize_usage dk wk ((alookup aid st.usage).getD {})).heal.getD 0 + 1)) := by
    intro hq
    have hq2 : ¬ (Mode.heal = Mode.dmg ∧
        (normalize_usage dk wk ((alookup aid st.usage).getD {})).dmg.getD 0 ≥ DAILY_LIMIT) := by
      simp
    have hq3 : ¬ (True ∧
        (normalize_usage dk wk ((alookup aid st.usage).getD {})).heal.getD 0 ≥ DAILY_LIMIT) :=
      fun hc => absurd hc.2 (not_le.mpr hq)
    simp only [apply_delta, hres, actor_usage_snd, actor_usage_fst, husage, ensure_player_usage]
    rw [if_neg hq2, if_neg hq3]
    refine ⟨⟨_, rfl⟩, _, alookup_aset_self _ _ _, ?_⟩
    rfl
  have Hrd : (normalize_usage dk wk ((alookup aid st.usage).getD {})).resurrection.getD 0
        ≥ WEEKLY_RESURRECTION_LIMIT →
      (resurrection dk wk aid an req st).2 = Outcome.quotaDenied ∧
      alookup aid ((resurrection dk wk aid an req st).1).usage
        = some (normalize_usage dk wk ((alookup aid st.usage).getD {})) ∧
      (∀ uid p h, alookup uid st.players = some p → p.hp = some h →
         ∃ q, alookup uid ((resurrection dk wk aid an req st).1).players
                = some q ∧ q.hp = some h) := by
    intro hq
    simp only [resurrection, hres, actor_usage_snd, actor_usage_fst, husage, ensure_player_usage]
    rw [if_pos hq]
    exact ⟨rfl, alookup_aset_self _ _ _, pre_state_preserves_hp req st aid an⟩
  have Hra : (normalize_usage dk wk ((alookup aid st.usage).getD {})).resurrection.getD 0
        < WEEKLY_RESURRECTION_LIMIT →
      (∃ hp2, (resurrection dk wk aid an req st).2 = Outcome.applied target.user_id hp2) ∧
      (∃ u2, alookup aid ((resurrection dk wk aid an req st).1).usage = some u2 ∧
         u2.resurrection
           = some ((normalize_usage dk wk ((alookup aid st.usage).getD {})).resurrection.getD 0
               + 1)) := by
    intro hq
    simp only [resurrection, hres, actor_usage_snd, actor_usage_fst, husage, ensure_player_usage]
    rw [if_neg (not_le.mpr hq)]
    refine ⟨⟨_, rfl⟩, _, alookup_aset_self _ _ _, ?_⟩
    rfl
  refine ⟨Hdd, Hda, Hhd, Hha, Hrd, Hra, ?_, ?_, ?_⟩
  · intro hle u2 h2
    rcases le_or_lt DAILY_LIMIT
        ((normalize_usage dk wk ((alookup aid st.usage).getD {})).dmg.getD 0) with hge | hlt
    · obtain ⟨_, hu, _⟩ := Hdd hge
      rw [hu] at h2
      simp only [Option.some.injEq] at h2
      rw [← h2]
      exact hle
    · obtain ⟨_, u3, hu3, hdm⟩ := Hda hlt
      rw [hu3] at h2
      simp only [Option.some.injEq] at h2
      rw [← h2, hdm]
      simp only [Option.getD_some, DAILY_LIMIT] at hlt ⊢
      omega
  · intro hle u2 h2
    rcases le_or_lt DAILY_LIMIT
        ((normalize_usage dk wk ((alookup aid st.usage).getD {})).heal.getD 0) with hge | hlt
    · obtain ⟨_, hu, _⟩ := Hhd hge
      rw [hu] at h2
      simp only [Option.some.injEq] at h2
      rw [← h2]
      exact hle
    · obtain ⟨_, u3, hu3, hdm⟩ := Hha hlt
      rw [hu3] at h2
      simp only [Option.some.injEq] at h2
      rw [← h2, hdm]
      simp only [Option.getD_some, DAILY_LIMIT] at hlt ⊢
      omega
  · intro hle u2 h2
    rcases le_or_lt WEEKLY_RESURRECTION_LIMIT
        ((normalize_usage dk wk ((alookup aid st.usage).getD {})).resurrection.getD 0)
      with hge | hlt
    · obtain ⟨_, hu, _⟩ := Hrd hge
      rw [hu] at h2
      simp only [Option.some.injEq] at h2
      rw [← h2]
      exact hle
    · obtain ⟨_, u3, hu3, hdm⟩ := Hra hlt
      rw [hu3] at h2
      simp only [Option.some.injEq] at h2
      rw [← h2, hdm]
      simp only [Option.getD_some, WEEKLY_RESURRECTION_LIMIT] at hlt ⊢
      omega

/-- Witness for C2 at a concrete input: an actor with 10/10 daily damage
charges is denied and the stored record stays the normalized one. -/
theorem C2_quota_gate_witness :
    (apply_delta "d" "w" "1" "A" { reply_author := none, arg := some "mira" } 3 Mode.dmg
        { players := [("7", { name := "Mira", hp := some 50 })],
          usage := [("1", { day := some "d", dmg := some 10, heal := some 0,
                            week := some "w", resurrection := some 0 })] }).2
      = Outcome.quotaDenied ∧
    alookup "1" ((apply_delta "d" "w" "1" "A" { reply_author := none, arg := some "mira" } 3
        Mode.dmg
        { players := [("7", { name := "Mira", hp := some 50 })],
          usage := [("1", { day := some "d", dmg := some 10, heal := some 0,
                            week := some "w", resurrection := some 0 })] }).1).usage
      = some (normalize_usage "d" "w"
          ((alookup "1"
              ({ players := [("7", { name := "Mira", hp := some 50 })],
                 usage := [("1", { day := some "d", dmg := some 10, heal := some 0,
                                   week := some "w", resurrection := some 0 })] } : BotState).usage).getD
            {})) := by
  have h := C2_quota_gate "d" "w" "1" "A" { reply_author := none, arg := some "mira" } 3
    { players := [("7", { name := "Mira", hp := some 50 })],
      usage := [("1", { day := some "d", dmg := some 10, heal := some 0,
                        week := some "w", resurrection := some 0 })] }
    { user_id := "7", name := "Mira" } (by decide)
  exact ⟨(h.1 (by decide)).1, (h.1 (by decide)).2.1⟩

/-- Claim C4: a resurrection that resolves its target and passes the
weekly quota check sets the target's stored hp to exactly 100 —
independently of its previous value, including 100 — and increments the
actor's weekly resurrection counter by exactly one. -/
theorem C4_resurrection_full_heal (dk wk aid an : String) (req : Request) (st : BotState)
    (target : Target)
    (hres : (resolve_target req (ensure_player st aid an).1).2 = some target)
    (hq : (normalize_usage dk wk ((alookup aid st.usage).getD {})).resurrection.getD 0
          < WEEKLY_RESURRECTION_LIMIT) :
    (resurrection dk wk aid an req st).2 = Outcome.applied target.user_id MAX_HP ∧
    (∃ p, alookup target.user_id ((resurrection dk wk aid an req st).1).players = some p ∧
       p.hp = some MAX_HP) ∧
    (∃ u2, alookup aid ((resurrection dk wk aid an req st).1).usage = some u2 ∧
       u2.resurrection
         = some ((normalize_usage dk wk ((alookup aid st.usage).getD {})).resurrection.getD 0 + 1)) := by
  have husage := pre_state_usage req st aid an
  have hq2 : ¬ (normalize_usage dk wk ((alookup aid st.usage).getD {})).resurrection.getD 0
      ≥ WEEKLY_RESURRECTION_LIMIT := not_le.mpr hq
  simp only [resurrection, hres, actor_usage_snd, actor_usage_fst, husage, ensure_player_usage]
  rw [if_neg hq2]
  refine ⟨rfl, ⟨_, alookup_aset_self _ _ _, rfl⟩, ?_⟩
  refine ⟨_, alookup_aset_self _ _ _, ?_⟩
  rfl

/-- Witness for C4 at a concrete input: resurrecting `"Mira"`, who is
already at full 100 hp, still succeeds, rewrites `hp = 100`, and
consumes the single weekly charge. -/
theorem C4_resurrection_full_heal_witness :
    (resurrection "d" "w" "1" "A" { reply_author := none, arg := some "mira" }
        { players := [("7", { name := "Mira", hp := some 100 })], usage := [] }).2
      = Outcome.applied "7" MAX_HP ∧
    (∃ p, alookup "7" ((resurrection "d" "w" "1" "A" { reply_author := none, arg := some "mira" }
        { players := [("7", { name := "Mira", hp := some 100 })], usage := [] }).1).players
        = some p ∧ p.hp = some MAX_HP) := by
  have h := C4_resurrection_full_heal "d" "w" "1" "A"
    { reply_author := none, arg := some "mira" }
    { players := [("7", { name := "Mira", hp := some 100 })], usage := [] }
    { user_id := "7", name := "Mira" } (by decide) (by decide)
  exact ⟨h.1, h.2.1⟩

/-- Counterexample to C5 as stated: a damage request that fails to
resolve a target is a recoverable failure (`noTarget`), yet the saved
snapshot differs from the pre-state — the actor was auto-registered by
`ensure_player` before the target check. -/
theorem C5_counterexample :
    (apply_delta "d" "w" "1" "A" { reply_author := none, arg := none } 3 Mode.dmg
        { players := [], usage := [] }).2 = Outcome.noTarget ∧
    (apply_delta "d" "w" "1" "A" { reply_author := none, arg := none } 3 Mode.dmg
        { players := [], usage := [] }).1 ≠ { players := [], usage := [] } := by
  decide

/-- C5 as amended: on a recoverable failure (no target, or quota denied)
of damage, heal, or resurrection, no stored hp changes and no quota
counter is consumed — the snapshot differs from the pre-state at most by
actor / reply-author registration and by normalization of the actor's
usage windows. -/
theorem C5_failure_frame (dk wk aid an : String) (req : Request) (amount : Int)
    (mode : Mode) (st : BotState) :
    (((apply_delta dk wk aid an req amount mode st).2 = Outcome.noTarget ∨
      (apply_delta dk wk aid an req amount mode st).2 = Outcome.quotaDenied) →
      (∀ uid p h, alookup uid st.players = some p → p.hp = some h →
         ∃ q, alookup uid ((apply_delta dk wk aid an req amount mode st).1).players
                = some q ∧ q.hp = some h) ∧
      (∀ uid, uid ≠ aid →
         alookup uid ((apply_delta dk wk aid an req amount mode st).1).usage
           = alookup uid st.usage) ∧
      (alookup aid ((apply_delta dk wk aid an req amount mode st).1).usage
          = alookup aid st.usage ∨
       alookup aid ((apply_delta dk wk aid an req amount mode st).1).usage
          = some (normalize_usage dk wk ((alookup aid st.usage).getD {})))) ∧
    (((resurrection dk wk aid an req st).2 = Outcome.noTarget ∨
      (resurrection dk wk aid an req st).2 = Outcome.quotaDenied) →
      (∀ uid p h, alookup uid st.players = some p → p.hp = some h →
         ∃ q, alookup uid ((resurrection dk wk aid an req st).1).players
                = some q ∧ q.hp = some h) ∧
      (∀ uid, uid ≠ aid →
         alookup uid ((resurrection dk wk aid an req st).1).usage = alookup uid st.usage) ∧
      (alookup aid ((resurrection dk wk aid an req st).1).usage = alookup aid st.usage ∨
       alookup aid ((resurrection dk wk aid an req st).1).usage
          = some (normalize_usage dk wk ((alookup aid st.usage).getD {})))) := by
  have husage := pre_state_usage req st aid an
  constructor
  · intro hfail
    cases hres : (resolve_target req (ensure_player st aid an).1).2 with
    | none =>
        simp only [apply_delta, hres]
        exact ⟨pre_state_preserves_hp req st aid an,
          fun uid _ => by rw [husage], Or.inl (by rw [husage])⟩
    | some t =>
        cases mode
        · by_cases hq : (normalize_usage dk wk ((alookup aid st.usage).getD {})).dmg.getD 0
              ≥ DAILY_LIMIT
          · simp only [apply_delta, hres, actor_usage_snd, actor_usage_fst, husage,
              ensure_player_usage]
            rw [if_pos ⟨trivial, hq⟩]
            exact ⟨pre_state_preserves_hp req st aid an,
              fun uid hne => alookup_aset_ne hne _ _,
              Or.inr (alookup_aset_self _ _ _)⟩
          · exfalso
            have hq3 : ¬ (Mode.dmg = Mode.heal ∧
                (normalize_usage dk wk ((alookup aid st.usage).getD {})).heal.getD 0
                  ≥ DAILY_LIMIT) := by simp
            have hq2 : ¬ (True ∧
                (normalize_usage dk wk ((alookup aid st.usage).getD {})).dmg.getD 0
                  ≥ DAILY_LIMIT) := fun hc => hq hc.2
            rcases hfail with hf | hf <;>
              · simp only [apply_delta, hres, actor_usage_snd, actor_usage_fst, husage,
                  ensure_player_usage] at hf
                rw [if_neg hq2, if_neg hq3] at hf
                simp at hf
        · by_cases hq : (normalize_usage dk wk ((alookup aid st.usage).getD {})).heal.getD 0
              ≥ DAILY_LIMIT
          · have hq2 : ¬ (Mode.heal = Mode.dmg ∧
                (normalize_usage dk wk ((alookup aid st.usage).getD {})).dmg.getD 0
                  ≥ DAILY_LIMIT) := by simp
            simp only [apply_delta, hres, actor_usage_snd, actor_usage_fst, husage,
              ensure_player_usage]
            rw [if_neg hq2, if_pos ⟨trivial, hq⟩]
            exact ⟨pre_state_preserves_hp req st aid an,
              fun uid hne => alookup_aset_ne hne _ _,
              Or.inr (alookup_aset_self _ _ _)⟩
          · exfalso
            have hq2 : ¬ (Mode.heal = Mode.dmg ∧
                (normalize_usage dk wk ((alookup aid st.usage).getD {})).dmg.getD 0
                  ≥ DAILY_LIMIT) := by simp
            have hq3 : ¬ (True ∧
                (normalize_usage dk wk ((alookup aid st.usage).getD {})).heal.getD 0
                  ≥ DAILY_LIMIT) := fun hc => hq hc.2
            rcases hfail with hf | hf <;>
              · simp only [apply_delta, hres, actor_usage_snd, actor_usage_fst, husage,
                  ensure_player_usage] at hf
                rw [if_neg hq2, if_neg hq3] at hf
                simp at hf
  · intro hfail
    cases hres : (resolve_target req (ensure_player st aid an).1).2 with
    | none =>
        simp only [resurrection, hres]
        exact ⟨pre_state_preserves_hp req st aid an,
          fun uid _ => by rw [husage], Or.inl (by rw [husage])⟩
    | some t =>
        by_cases hq : (normalize_usage dk wk ((alookup aid st.usage).getD {})).resurrection.getD 0
            ≥ WEEKLY_RESURRECTION_LIMIT
        · simp only [resurrection, hres, actor_usage_snd, actor_usage_fst, husage,
            ensure_player_usage]
          rw [if_pos hq]
          exact ⟨pre_state_preserves_hp req st aid an,
            fun uid hne => alookup_aset_ne hne _ _,
            Or.inr (alookup_aset_self _ _ _)⟩
        · exfalso
          rcases hfail with hf | hf <;>
            · simp only [resurrection, hres, actor_usage_snd, actor_usage_fst, husage,
                ensure_player_usage] at hf
              rw [if_neg hq] at hf
              simp at hf

/-- Witness for C5 (amended) at a concrete input: the failed damage
request of the counterexample state preserves the stored hp of `"7"`
and consumes nothing from a usage map it never touches. -/
theorem C5_failure_frame_witness :
    (apply_delta "d" "w" "1" "A" { reply_author := none, arg := none } 3 Mode.dmg
        { players := [("7", { name := "Mira", hp := some 50 })], usage := [] }).2
      = Outcome.noTarget ∧
    (∃ q, alookup "7" ((apply_delta "d" "w" "1" "A" { reply_author := none, arg := none } 3
        Mode.dmg
        { players := [("7", { name := "Mira", hp := some 50 })], usage := [] }).1).players
        = some q ∧ q.hp = some 50) := by
  refine ⟨by decide, ?_⟩
  have h := (C5_failure_frame "d" "w" "1" "A" { reply_author := none, arg := none } 3 Mode.dmg
    { players := [("7", { name := "Mira", hp := some 50 })], usage := [] }).1
    (Or.inl (by decide))
  exact h.1 "7" { name := "Mira", hp := some 50 } 50 (by decide) rfl

end FateArdent
